import Mathlib

/-!
Shallow embedding of the wind resource assessment module
(src/wind_resource.py, class WindResourceModel) and proofs about it.

Modeling conventions:
- float values are real numbers; NaN (which arises from the gridded-data
  collaborator when a query point lies outside the spatial extent, and from
  the dropped entries of fit_weibull) is modeled by Option, with none
  standing for NaN;
- the float64 power operator of numpy returns +infinity on a zero base with
  a negative exponent, so the Weibull shape parameter is an extended real;
- the gridded dataset collaborator (xarray) is modeled by its time index,
  its spatial extent and, for each height and time, the spatially
  interpolated field values at an in-extent query point.
-/

/-- Timestamp of one record of the gridded dataset: the calendar year plus a
position inside the year (the pair is ordered chronologically).  The date
slice used by subset_years keeps exactly the records whose year lies in the
requested range. -/
structure TimeStamp where
  year : Int
  sub : Nat
deriving DecidableEq

/-- Model of the xarray dataset held by WindResourceModel: the time index,
the spatial extent of the latitude and longitude coordinates, and for each
height and time the value that spatial interpolation of the variables
u<height> and v<height> produces at an in-extent query point.  Outside the
extent the collaborator returns NaN, modeled as none by interp_u below. -/
structure GridDataset where
  times : List TimeStamp
  latMin : ℝ
  latMax : ℝ
  lonMin : ℝ
  lonMax : ℝ
  uVal : Nat → TimeStamp → ℝ → ℝ → ℝ
  vVal : Nat → TimeStamp → ℝ → ℝ → ℝ

/-- Embedding of WindResourceModel.subset_years: slicing the time index
between start_year-01-01 and end_year-12-31 keeps exactly the records whose
year lies between start_year and end_year. -/
def subset_years (ds : GridDataset) (start_year end_year : Int) : List TimeStamp :=
  ds.times.filter fun t => decide (start_year ≤ t.year ∧ t.year ≤ end_year)

/-- Conversion from radians to degrees, as np.degrees does. -/
noncomputable def degrees (x : ℝ) : ℝ := x * (180 / Real.pi)

/-- Value of the float64 expression np.arctan2(-u, -v) as a function of the
real input values u and v.  Reals carry no signed zero, but the call site
negates its inputs, so a float input equal to 0 (+0.0) reaches arctan2 as
-0.0; the IEEE special values arctan2(-0.0, -0.0) = -pi and
arctan2(-0.0, x < 0) = -pi therefore put the u = 0 rows on the negative
branch (for v > 0 this is arctan(0/v) - pi, so the u >= 0 cases unify; for
v = 0 it is the final -pi).  Note (-u)/(-v) = u/v over the reals. -/
noncomputable def arctan2_neg (u v : ℝ) : ℝ :=
  if v < 0 then Real.arctan (u / v)
  else if 0 < v ∧ u < 0 then Real.arctan (u / v) + Real.pi
  else if 0 < v ∧ 0 ≤ u then Real.arctan (u / v) - Real.pi
  else if v = 0 ∧ u < 0 then Real.pi / 2
  else if v = 0 ∧ 0 < u then -(Real.pi / 2)
  else -Real.pi

/-- Python float modulo with modulus 360, as applied to the direction. -/
noncomputable def mod360 (x : ℝ) : ℝ := x - 360 * (⌊x / 360⌋ : ℝ)

/-- Embedding of WindResourceModel._uv_to_speed_dir; arctan2_neg is the
model of the inner np.arctan2(-u, -v). -/
noncomputable def uv_to_speed_dir (u v : ℝ) : ℝ × ℝ :=
  (Real.sqrt (u ^ 2 + v ^ 2), mod360 (degrees (arctan2_neg u v) + 360))

/-- Embedding of WindResourceModel.power_law_profile. -/
noncomputable def power_law_profile (speed_ref z_ref z_target alpha : ℝ) : ℝ :=
  speed_ref * (z_target / z_ref) ^ alpha

theorem mod360_nonneg (x : ℝ) : 0 ≤ mod360 x := by
  have h := Int.floor_le (x / 360)
  have h2 : (360 : ℝ) * (⌊x / 360⌋ : ℝ) ≤ 360 * (x / 360) := by nlinarith
  have h3 : (360 : ℝ) * (x / 360) = x := by ring
  unfold mod360
  linarith

theorem mod360_lt_360 (x : ℝ) : mod360 x < 360 := by
  have h := Int.lt_floor_add_one (x / 360)
  have h2 : (360 : ℝ) * (x / 360) < 360 * ((⌊x / 360⌋ : ℝ) + 1) := by nlinarith
  have h3 : (360 : ℝ) * (x / 360) = x := by ring
  unfold mod360
  linarith

theorem mod360_of_lt (x : ℝ) (h0 : 0 ≤ x) (h1 : x < 360) : mod360 x = x := by
  have hf : ⌊x / 360⌋ = 0 := by
    rw [Int.floor_eq_zero_iff]
    constructor
    · positivity
    · rw [div_lt_one (by norm_num : (0:ℝ) < 360)]; linarith
  unfold mod360
  rw [hf]
  norm_num

/-- Predicate for a query point lying inside the spatial extent of the
gridded dataset. -/
def inExtent (ds : GridDataset) (lat lon : ℝ) : Prop :=
  ds.latMin ≤ lat ∧ lat ≤ ds.latMax ∧ ds.lonMin ≤ lon ∧ lon ≤ ds.lonMax

noncomputable instance (ds : GridDataset) (lat lon : ℝ) : Decidable (inExtent ds lat lon) := by
  unfold inExtent
  infer_instance

/-- Spatial interpolation of the variable u<height> at one time step: the
collaborator returns the interpolated value inside the extent and NaN
(none) outside it. -/
noncomputable def interp_u (ds : GridDataset) (height : Nat) (lat lon : ℝ)
    (t : TimeStamp) : Option ℝ :=
  if inExtent ds lat lon then some (ds.uVal height t lat lon) else none

/-- Spatial interpolation of the variable v<height> at one time step. -/
noncomputable def interp_v (ds : GridDataset) (height : Nat) (lat lon : ℝ)
    (t : TimeStamp) : Option ℝ :=
  if inExtent ds lat lon then some (ds.vVal height t lat lon) else none

/-- Embedding of WindResourceModel.get_time_series_at_location: for every
time step of the selected window, interpolate u and v at the query point and
convert to (speed, direction); an undefined (NaN) interpolation yields an
undefined entry. -/
noncomputable def get_time_series_at_location (ds : GridDataset) (lat lon : ℝ)
    (height : Nat) (start_year end_year : Int) : List (Option (ℝ × ℝ)) :=
  (subset_years ds start_year end_year).map fun t =>
    (interp_u ds height lat lon t).bind fun u =>
      (interp_v ds height lat lon t).map fun v => uv_to_speed_dir u v

/-- Embedding of WindResourceModel.get_speed_at_height_power_law: the speed
component of the reference-height series, extrapolated to the target height
by the power law. -/
noncomputable def get_speed_at_height_power_law (ds : GridDataset) (lat lon : ℝ)
    (z_target : ℝ) (ref_height : Nat) (alpha : ℝ) (start_year end_year : Int) :
    List (Option ℝ) :=
  (get_time_series_at_location ds lat lon ref_height start_year end_year).map
    (Option.map fun sd => power_law_profile sd.1 (ref_height : ℝ) z_target alpha)

/-- Inner loop of np.interp: the current knot is (x0, y0) and the remaining
knots follow; the query x is only reached here when it is at least x0. -/
noncomputable def interpFrom (x x0 y0 : ℝ) : List (ℝ × ℝ) → ℝ
  | [] => if x ≤ x0 then y0 else 0
  | (x1, y1) :: rest =>
      if x ≤ x1 then y0 + (y1 - y0) * (x - x0) / (x1 - x0)
      else interpFrom x x1 y1 rest

/-- np.interp with left=0 and right=0 on a curve given as its list of
(speed, power) knots: 0 below the first knot and above the last one, linear
interpolation in between.  np.interp rejects an empty knot list; the model
returns 0 there. -/
noncomputable def interp1 (curve : List (ℝ × ℝ)) (x : ℝ) : ℝ :=
  match curve with
  | [] => 0
  | (x0, y0) :: rest => if x < x0 then 0 else interpFrom x x0 y0 rest

/-- Embedding of WindResourceModel.interpolate_power: np.interp mapped over
the query speeds, with NaN queries (none) producing NaN results. -/
noncomputable def interpolate_power (ws_values : List (Option ℝ))
    (ws_curve power_curve : List ℝ) : List (Option ℝ) :=
  ws_values.map (Option.map (interp1 (ws_curve.zip power_curve)))

/-- np.sum over a float array: NaN as soon as one entry is NaN, and 0 on an
empty array. -/
noncomputable def sumOpt : List (Option ℝ) → Option ℝ
  | [] => some 0
  | o :: rest => o.bind fun a => (sumOpt rest).map fun s => a + s

/-- Embedding of WindResourceModel.compute_aep.  The power curve arrives as
the two arrays that load_power_curve reads from the CSV file (reading the
file itself is external I/O). -/
noncomputable def compute_aep (ds : GridDataset) (lat lon : ℝ) (hub_height : ℝ)
    (ws_curve power_curve : List ℝ) (year : Int) (alpha : ℝ) : Option ℝ :=
  let ref_height : Nat := if 50 < hub_height then 100 else 10
  let speed_hub :=
    get_speed_at_height_power_law ds lat lon hub_height ref_height alpha year year
  let power_ts_kw := interpolate_power speed_hub ws_curve power_curve
  (sumOpt power_ts_kw).map fun total_energy_kwh => total_energy_kwh / 1000

/-- AEP pipeline with the reference height as an explicit argument; used to
state which reference level compute_aep selects. -/
noncomputable def aep_with_ref (ds : GridDataset) (lat lon : ℝ) (hub_height : ℝ)
    (ref_height : Nat) (ws_curve power_curve : List ℝ) (year : Int) (alpha : ℝ) :
    Option ℝ :=
  (sumOpt (interpolate_power
      (get_speed_at_height_power_law ds lat lon hub_height ref_height alpha year year)
      ws_curve power_curve)).map fun s => s / 1000

theorem arctan2_neg_one_zero : arctan2_neg 1 0 = -(Real.pi / 2) := by
  unfold arctan2_neg
  norm_num

theorem arctan2_neg_zero_negone : arctan2_neg 0 (-1) = 0 := by
  unfold arctan2_neg
  rw [if_pos (by norm_num : (-1 : ℝ) < 0)]
  simp

theorem arctan2_neg_zero_zero : arctan2_neg 0 0 = -Real.pi := by
  unfold arctan2_neg
  norm_num

theorem uv_val_one_zero : uv_to_speed_dir 1 0 = (1, 270) := by
  unfold uv_to_speed_dir
  rw [arctan2_neg_one_zero]
  have hd : degrees (-(Real.pi / 2)) = -90 := by
    unfold degrees
    have hpi := Real.pi_ne_zero
    field_simp
    ring
  rw [hd]
  have hm : mod360 (-90 + 360) = 270 := by
    rw [show (-90 : ℝ) + 360 = 270 by norm_num]
    exact mod360_of_lt 270 (by norm_num) (by norm_num)
  rw [hm]
  norm_num

theorem uv_val_zero_negone : uv_to_speed_dir 0 (-1) = (1, 0) := by
  unfold uv_to_speed_dir
  rw [arctan2_neg_zero_negone]
  have hd : degrees 0 = 0 := by
    unfold degrees
    ring
  rw [hd]
  have hm : mod360 (0 + 360) = 0 := by
    rw [show (0 : ℝ) + 360 = 360 by norm_num]
    unfold mod360
    rw [show (360 : ℝ) / 360 = 1 by norm_num, Int.floor_one]
    norm_num
  rw [hm]
  norm_num

theorem uv_val_zero_zero : uv_to_speed_dir 0 0 = (0, 180) := by
  unfold uv_to_speed_dir
  rw [arctan2_neg_zero_zero]
  have hd : degrees (-Real.pi) = -180 := by
    unfold degrees
    have hpi := Real.pi_ne_zero
    field_simp
    ring
  rw [hd]
  have hm : mod360 (-180 + 360) = 180 := by
    rw [show (-180 : ℝ) + 360 = 180 by norm_num]
    exact mod360_of_lt 180 (by norm_num) (by norm_num)
  rw [hm]
  norm_num

/-- Counterexample to C4 as stated: at u = v = 0 the program's direction is
180 degrees, not 0: the call site negates the float inputs, turning +0.0
into -0.0, and the IEEE convention gives arctan2(-0.0, -0.0) = -pi, which
(+360, mod 360) maps to 180. -/
theorem uv_zero_zero_counterexample :
    uv_to_speed_dir 0 0 = (0, 180) ∧
    ((0 : ℝ), (180 : ℝ)) ≠ ((0 : ℝ), (0 : ℝ)) := by
  refine ⟨uv_val_zero_zero, ?_⟩
  intro h
  have h2 := congrArg Prod.snd h
  norm_num at h2

/-- C4 (amended): uv_to_speed_dir returns speed sqrt(u^2 + v^2) and
direction (degrees(arctan2(-u, -v)) + 360) mod 360, which lies in [0, 360);
u=1, v=0 gives (1, 270) and u=0, v=-1 gives (1, 0) as claimed, while u=v=0
gives speed 0 and direction 180: a fixed, deterministic convention (IEEE
arctan2(-0.0, -0.0) = -pi at the negated call site), but 180, not 0. -/
theorem uv_to_speed_dir_spec :
    (∀ u v : ℝ,
      (uv_to_speed_dir u v).1 = Real.sqrt (u ^ 2 + v ^ 2) ∧
      (uv_to_speed_dir u v).2 = mod360 (degrees (arctan2_neg u v) + 360) ∧
      0 ≤ (uv_to_speed_dir u v).2 ∧ (uv_to_speed_dir u v).2 < 360) ∧
    uv_to_speed_dir 1 0 = (1, 270) ∧
    uv_to_speed_dir 0 (-1) = (1, 0) ∧
    uv_to_speed_dir 0 0 = (0, 180) :=
  ⟨fun u v => ⟨rfl, rfl, mod360_nonneg _, mod360_lt_360 _⟩,
   uv_val_one_zero, uv_val_zero_negone, uv_val_zero_zero⟩

/-- C8: the power law strictly increases a positive speed when extrapolating
upward (0 < z_ref < z_target, positive exponent), and is the identity at the
reference height. -/
theorem power_law_profile_spec (V z_ref z_target alpha : ℝ) :
    (0 < z_ref → z_ref < z_target → 0 < alpha → 0 < V →
       V < power_law_profile V z_ref z_target alpha) ∧
    (0 < z_ref → power_law_profile V z_ref z_ref alpha = V) := by
  constructor
  · intro h1 h2 h3 hV
    unfold power_law_profile
    have hq : 1 < z_target / z_ref := (one_lt_div h1).mpr h2
    have hqpos : 0 < z_target / z_ref := lt_trans zero_lt_one hq
    have hgt : 1 < (z_target / z_ref) ^ alpha :=
      (Real.one_lt_rpow_iff_of_pos hqpos).mpr (Or.inl ⟨hq, h3⟩)
    nlinarith
  · intro h1
    unfold power_law_profile
    rw [div_self (ne_of_gt h1), Real.one_rpow, mul_one]

/-- Witness for C8 at V = 1, z_ref = 1, z_target = 2, alpha = 1. -/
theorem power_law_profile_spec_witness :
    (0 : ℝ) < 1 ∧ (1 : ℝ) < 2 ∧
    1 < power_law_profile 1 1 2 1 ∧ power_law_profile 1 1 1 1 = 1 :=
  ⟨by norm_num, by norm_num,
   (power_law_profile_spec 1 1 2 1).1 (by norm_num) (by norm_num) (by norm_num) (by norm_num),
   (power_law_profile_spec 1 1 1 1).2 (by norm_num)⟩

theorem compute_aep_eq_aep_with_ref (ds : GridDataset) (lat lon hub_height : ℝ)
    (ws_curve power_curve : List ℝ) (year : Int) (alpha : ℝ) :
    compute_aep ds lat lon hub_height ws_curve power_curve year alpha =
      aep_with_ref ds lat lon hub_height (if 50 < hub_height then 100 else 10)
        ws_curve power_curve year alpha := rfl

/-- C2: compute_aep selects the vertical-extrapolation reference height as
exactly 100 m when hub_height > 50 and 10 m otherwise; in particular
hub_height = 50 uses the 10 m level. -/
theorem compute_aep_ref_height (ds : GridDataset) (lat lon hub_height : ℝ)
    (ws_curve power_curve : List ℝ) (year : Int) (alpha : ℝ) :
    (50 < hub_height →
       compute_aep ds lat lon hub_height ws_curve power_curve year alpha =
         aep_with_ref ds lat lon hub_height 100 ws_curve power_curve year alpha) ∧
    (hub_height ≤ 50 →
       compute_aep ds lat lon hub_height ws_curve power_curve year alpha =
         aep_with_ref ds lat lon hub_height 10 ws_curve power_curve year alpha) ∧
    compute_aep ds lat lon 50 ws_curve power_curve year alpha =
      aep_with_ref ds lat lon 50 10 ws_curve power_curve year alpha := by
  refine ⟨?_, ?_, ?_⟩
  · intro h
    rw [compute_aep_eq_aep_with_ref, if_pos h]
  · intro h
    rw [compute_aep_eq_aep_with_ref, if_neg (not_lt.mpr h)]
  · rw [compute_aep_eq_aep_with_ref, if_neg (by norm_num : ¬ (50 : ℝ) < 50)]

/-- Trivial concrete dataset (empty time index) used by witnesses. -/
noncomputable def dsEmpty : GridDataset :=
  ⟨[], 0, 0, 0, 0, fun _ _ _ _ => 0, fun _ _ _ _ => 0⟩

/-- Witness for C2 at hub heights 51 and 50 over a concrete dataset. -/
theorem compute_aep_ref_height_witness :
    ((50 : ℝ) < 51 ∧
      compute_aep dsEmpty 0 0 51 [] [] 2000 1 =
        aep_with_ref dsEmpty 0 0 51 100 [] [] 2000 1) ∧
    ((50 : ℝ) ≤ 50 ∧
      compute_aep dsEmpty 0 0 50 [] [] 2000 1 =
        aep_with_ref dsEmpty 0 0 50 10 [] [] 2000 1) :=
  ⟨⟨by norm_num, (compute_aep_ref_height dsEmpty 0 0 51 [] [] 2000 1).1 (by norm_num)⟩,
   ⟨by norm_num, (compute_aep_ref_height dsEmpty 0 0 50 [] [] 2000 1).2.1 (by norm_num)⟩⟩

theorem subset_years_single (ds : GridDataset) (year : Int) :
    subset_years ds year year = ds.times.filter fun t => decide (t.year = year) := by
  unfold subset_years
  apply List.filter_congr
  intro t _
  apply decide_eq_decide.mpr
  omega

theorem sumOpt_eq_none (l : List (Option ℝ)) (h : none ∈ l) : sumOpt l = none := by
  induction l with
  | nil => cases h
  | cons o rest ih =>
    rcases List.mem_cons.mp h with h1 | h2
    · rw [← h1]
      rfl
    · cases o <;> simp [sumOpt, ih h2]

theorem aep_pipeline_aux (ds : GridDataset) (lat lon hub_height : ℝ) (ref_height : Nat)
    (ws_curve power_curve : List ℝ) (alpha : ℝ) (hin : inExtent ds lat lon)
    (l : List TimeStamp) :
    sumOpt (((l.map fun t =>
        (interp_u ds ref_height lat lon t).bind fun u =>
          (interp_v ds ref_height lat lon t).map fun v => uv_to_speed_dir u v).map
        (Option.map fun sd => power_law_profile sd.1 (ref_height : ℝ) hub_height alpha)).map
        (Option.map (interp1 (ws_curve.zip power_curve)))) =
      some ((l.map fun t => interp1 (ws_curve.zip power_curve)
        (power_law_profile
          (uv_to_speed_dir (ds.uVal ref_height t lat lon) (ds.vVal ref_height t lat lon)).1
          (ref_height : ℝ) hub_height alpha)).sum) := by
  induction l with
  | nil => rfl
  | cons t rest ih =>
    simp only [List.map_cons, List.sum_cons, sumOpt]
    rw [ih]
    simp [interp_u, interp_v, hin]

theorem aep_with_ref_eq (ds : GridDataset) (lat lon hub_height : ℝ) (ref_height : Nat)
    (ws_curve power_curve : List ℝ) (year : Int) (alpha : ℝ)
    (hin : inExtent ds lat lon) :
    aep_with_ref ds lat lon hub_height ref_height ws_curve power_curve year alpha =
      some ((((ds.times.filter fun t => decide (t.year = year)).map fun t =>
          interp1 (ws_curve.zip power_curve)
            (power_law_profile
              (uv_to_speed_dir (ds.uVal ref_height t lat lon)
                (ds.vVal ref_height t lat lon)).1
              (ref_height : ℝ) hub_height alpha)).sum) / 1000) := by
  unfold aep_with_ref interpolate_power get_speed_at_height_power_law
    get_time_series_at_location
  rw [subset_years_single, aep_pipeline_aux ds lat lon hub_height ref_height
    ws_curve power_curve alpha hin]
  rfl

/-- C1: inside the spatial extent, compute_aep equals the sum, over the
hub-height speed samples of the single calendar year start_year = end_year =
year, of the piecewise-linearly interpolated power values, divided by 1000;
each time step of that year contributes exactly one summand, and the number
of speed samples equals the number of time steps of that year. -/
theorem compute_aep_spec (ds : GridDataset) (lat lon hub_height : ℝ)
    (ws_curve power_curve : List ℝ) (year : Int) (alpha : ℝ)
    (hin : inExtent ds lat lon) :
    compute_aep ds lat lon hub_height ws_curve power_curve year alpha =
      some ((((ds.times.filter fun t => decide (t.year = year)).map fun t =>
          interp1 (ws_curve.zip power_curve)
            (power_law_profile
              (uv_to_speed_dir (ds.uVal (if 50 < hub_height then 100 else 10) t lat lon)
                (ds.vVal (if 50 < hub_height then 100 else 10) t lat lon)).1
              (Nat.cast (if 50 < hub_height then 100 else 10) : ℝ) hub_height alpha)).sum)
        / 1000) ∧
    (get_speed_at_height_power_law ds lat lon hub_height
        (if 50 < hub_height then 100 else 10) alpha year year).length =
      (ds.times.filter fun t => decide (t.year = year)).length := by
  constructor
  · rw [compute_aep_eq_aep_with_ref,
      aep_with_ref_eq ds lat lon hub_height _ ws_curve power_curve year alpha hin]
  · unfold get_speed_at_height_power_law get_time_series_at_location
    rw [subset_years_single]
    simp

/-- Concrete dataset used by witnesses: extent [0,1] x [0,1], two time steps
in the year 2000 and one in 1999, constant fields u = 3 and v = 4. -/
noncomputable def dsDemo : GridDataset :=
  ⟨[⟨2000, 0⟩, ⟨1999, 0⟩, ⟨2000, 1⟩], 0, 1, 0, 1,
   fun _ _ _ _ => 3, fun _ _ _ _ => 4⟩

theorem dsDemo_inExtent : inExtent dsDemo 0 0 := by
  refine ⟨?_, ?_, ?_, ?_⟩ <;> simp [dsDemo]

/-- Witness for C1 over the concrete dataset dsDemo at hub height 100. -/
theorem compute_aep_spec_witness :
    inExtent dsDemo 0 0 ∧
    compute_aep dsDemo 0 0 100 [0, 10] [0, 1000] 2000 0.14 =
      some ((((dsDemo.times.filter fun t => decide (t.year = 2000)).map fun t =>
          interp1 ([(0 : ℝ), 10].zip [(0 : ℝ), 1000])
            (power_law_profile
              (uv_to_speed_dir (dsDemo.uVal (if (50 : ℝ) < 100 then 100 else 10) t 0 0)
                (dsDemo.vVal (if (50 : ℝ) < 100 then 100 else 10) t 0 0)).1
              (Nat.cast (if (50 : ℝ) < 100 then 100 else 10) : ℝ) 100 0.14)).sum)
        / 1000) :=
  ⟨dsDemo_inExtent,
   (compute_aep_spec dsDemo 0 0 100 [0, 10] [0, 1000] 2000 0.14 dsDemo_inExtent).1⟩

/-- C7: outside the spatial extent every entry of the location time series is
undefined (NaN, modeled as none) rather than an extrapolated value, and the
failure propagates unchanged through compute_aep whenever the selected year
window contains at least one time step. -/
theorem out_of_extent_propagates (ds : GridDataset) (lat lon : ℝ)
    (height : Nat) (start_year end_year : Int) (hub_height : ℝ)
    (ws_curve power_curve : List ℝ) (year : Int) (alpha : ℝ)
    (hout : ¬ inExtent ds lat lon) :
    (∀ o ∈ get_time_series_at_location ds lat lon height start_year end_year, o = none) ∧
    (subset_years ds year year ≠ [] →
      compute_aep ds lat lon hub_height ws_curve power_curve year alpha = none) := by
  constructor
  · intro o ho
    simp only [get_time_series_at_location, List.mem_map] at ho
    obtain ⟨t, _, rfl⟩ := ho
    simp [interp_u, hout]
  · intro hne
    rw [compute_aep_eq_aep_with_ref]
    unfold aep_with_ref interpolate_power get_speed_at_height_power_law
      get_time_series_at_location
    obtain ⟨t, ht⟩ := List.exists_mem_of_ne_nil _ hne
    have hmem : (none : Option ℝ) ∈
        (((subset_years ds year year).map fun t =>
            (interp_u ds (if 50 < hub_height then 100 else 10) lat lon t).bind fun u =>
              (interp_v ds (if 50 < hub_height then 100 else 10) lat lon t).map fun v =>
                uv_to_speed_dir u v).map
          (Option.map fun sd => power_law_profile sd.1
            (Nat.cast (if 50 < hub_height then 100 else 10) : ℝ) hub_height alpha)).map
          (Option.map (interp1 (ws_curve.zip power_curve))) := by
      simp only [List.map_map, List.mem_map]
      exact ⟨t, ht, by simp [Function.comp, interp_u, hout]⟩
    rw [sumOpt_eq_none _ hmem]
    rfl

theorem dsDemo_notInExtent : ¬ inExtent dsDemo 5 0 := by
  intro h
  have h2 := h.2.1
  simp [dsDemo] at h2

/-- Witness for C7: a query at latitude 5 lies outside the extent [0,1] of
dsDemo, the year-2000 window of dsDemo is nonempty, and compute_aep is
undefined there. -/
theorem out_of_extent_propagates_witness :
    ¬ inExtent dsDemo 5 0 ∧
    subset_years dsDemo 2000 2000 ≠ [] ∧
    compute_aep dsDemo 5 0 100 [0, 10] [0, 1000] 2000 0.14 = none := by
  have hne : subset_years dsDemo 2000 2000 ≠ [] := by
    simp [subset_years, dsDemo]
  exact ⟨dsDemo_notInExtent, hne,
    (out_of_extent_propagates dsDemo 5 0 100 2000 2000 100 [0, 10] [0, 1000] 2000 0.14
      dsDemo_notInExtent).2 hne⟩

theorem interpFrom_right (q : ℝ) :
    ∀ (rest : List (ℝ × ℝ)) (x0 y0 : ℝ), (∀ p ∈ rest, p.1 < q) → x0 < q →
      interpFrom q x0 y0 rest = 0
  | [], x0, y0, _, hx0 => by
    simp only [interpFrom]
    rw [if_neg (not_le.mpr hx0)]
  | (x1, y1) :: rest, x0, y0, hall, hx0 => by
    simp only [interpFrom]
    rw [if_neg (not_le.mpr (hall (x1, y1) (by simp)))]
    exact interpFrom_right q rest x1 y1 (fun p hp => hall p (by simp [hp]))
      (hall (x1, y1) (by simp))

theorem interpFrom_bracket (q a b ya yb : ℝ) (post : List (ℝ × ℝ))
    (ha : a < q) (hb : q ≤ b) :
    ∀ (pre : List (ℝ × ℝ)), (∀ p ∈ pre, p.1 < q) → ∀ (x0 y0 : ℝ),
      interpFrom q x0 y0 (pre ++ (a, ya) :: (b, yb) :: post) =
        ya + (yb - ya) * (q - a) / (b - a) := by
  intro pre
  induction pre with
  | nil =>
    intro _ x0 y0
    simp only [List.nil_append, interpFrom]
    rw [if_neg (not_le.mpr ha), if_pos hb]
  | cons p pre ih =>
    intro hpre x0 y0
    obtain ⟨x1, y1⟩ := p
    simp only [List.cons_append, interpFrom]
    rw [if_neg (not_le.mpr (hpre (x1, y1) (by simp)))]
    exact ih (fun p hp => hpre p (by simp [hp])) x1 y1

theorem interp1_bracket (curve : List (ℝ × ℝ)) (q : ℝ)
    (hsort : (curve.map Prod.fst).Chain' (· < ·)) :
    ∀ pre a ya b yb post, curve = pre ++ (a, ya) :: (b, yb) :: post →
      a < q → q ≤ b → interp1 curve q = ya + (yb - ya) * (q - a) / (b - a) := by
  intro pre a ya b yb post hcurve ha hb
  subst hcurve
  have hpair : List.Pairwise (· < ·)
      (pre.map Prod.fst ++ ((a, ya) :: (b, yb) :: post).map Prod.fst) := by
    rw [← List.map_append]
    exact List.chain'_iff_pairwise.mp hsort
  have hpre : ∀ p ∈ pre, p.1 < q := by
    intro p hp
    have h1 := (List.pairwise_append.mp hpair).2.2 p.1
      (List.mem_map_of_mem Prod.fst hp) a (by simp)
    linarith
  cases pre with
  | nil =>
    simp only [List.nil_append, interp1]
    rw [if_neg (not_lt.mpr (le_of_lt ha)), interpFrom, if_pos hb]
  | cons p0 pre2 =>
    obtain ⟨x0, y0⟩ := p0
    simp only [List.cons_append, interp1]
    rw [if_neg (not_lt.mpr (le_of_lt (hpre (x0, y0) (by simp))))]
    exact interpFrom_bracket q a b ya yb post ha hb pre2
      (fun p hp => hpre p (by simp [hp])) x0 y0

theorem interp1_at_knot (curve : List (ℝ × ℝ))
    (hsort : (curve.map Prod.fst).Chain' (· < ·)) :
    ∀ p ∈ curve, interp1 curve p.1 = p.2 := by
  intro p hp
  obtain ⟨s, t2, hdec⟩ := List.append_of_mem hp
  rcases List.eq_nil_or_concat s with rfl | ⟨s2, w, rfl⟩
  · subst hdec
    obtain ⟨b, yb⟩ := p
    simp only [List.nil_append, interp1] at hsort ⊢
    rw [if_neg (lt_irrefl b)]
    cases t2 with
    | nil =>
      simp [interpFrom]
    | cons p1 t3 =>
      obtain ⟨x1, y1⟩ := p1
      have hlt : b < x1 := by
        have := List.chain'_iff_pairwise.mp hsort
        exact (List.pairwise_cons.mp this).1 x1 (by simp)
      simp only [interpFrom]
      rw [if_pos (le_of_lt hlt)]
      simp
  · obtain ⟨a, ya⟩ := w
    obtain ⟨b, yb⟩ := p
    have hshape : s2.concat (a, ya) ++ (b, yb) :: t2 =
        s2 ++ (a, ya) :: (b, yb) :: t2 := by
      simp [List.concat_eq_append, List.append_assoc]
    rw [hshape] at hdec
    subst hdec
    have hab : a < b := by
      have hpair : List.Pairwise (· < ·)
          (s2.map Prod.fst ++ a :: b :: t2.map Prod.fst) := by
        have := List.chain'_iff_pairwise.mp hsort
        simpa using this
      have h2 := (List.pairwise_append.mp hpair).2.1
      exact (List.pairwise_cons.mp h2).1 b (by simp)
    have hres := interp1_bracket (s2 ++ (a, ya) :: (b, yb) :: t2) b hsort
      s2 a ya b yb t2 rfl hab (le_refl b)
    rw [hres, mul_div_assoc, div_self (sub_ne_zero.mpr (ne_of_gt hab))]
    ring

/-- C3: on an ascending power curve given as same-length speed and power
arrays, np.interp with zero fill returns 0 for a query below every curve
speed or above every curve speed, returns the curve power at every knot
speed (in particular at both endpoints), and returns the linear
interpolation between the two bracketing knots at an interior query. -/
theorem interpolate_power_spec (ws_curve power_curve : List ℝ) (q : ℝ)
    (hlen : ws_curve.length = power_curve.length)
    (hsort : ws_curve.Chain' (· < ·)) :
    ((∀ p ∈ ws_curve.zip power_curve, q < p.1) →
       interp1 (ws_curve.zip power_curve) q = 0) ∧
    ((∀ p ∈ ws_curve.zip power_curve, p.1 < q) →
       interp1 (ws_curve.zip power_curve) q = 0) ∧
    (∀ p ∈ ws_curve.zip power_curve, interp1 (ws_curve.zip power_curve) p.1 = p.2) ∧
    (∀ pre a ya b yb post,
       ws_curve.zip power_curve = pre ++ (a, ya) :: (b, yb) :: post →
       a < q → q ≤ b →
       interp1 (ws_curve.zip power_curve) q = ya + (yb - ya) * (q - a) / (b - a)) := by
  have hzs : ((ws_curve.zip power_curve).map Prod.fst).Chain' (· < ·) := by
    rw [List.map_fst_zip ws_curve power_curve (le_of_eq hlen)]
    exact hsort
  refine ⟨?_, ?_, interp1_at_knot _ hzs, interp1_bracket _ q hzs⟩
  · intro hall
    cases hz : ws_curve.zip power_curve with
    | nil => simp [interp1]
    | cons p0 rest =>
      obtain ⟨x0, y0⟩ := p0
      simp only [interp1]
      rw [if_pos (hall (x0, y0) (by simp [hz]))]
  · intro hall
    cases hz : ws_curve.zip power_curve with
    | nil => simp [interp1]
    | cons p0 rest =>
      obtain ⟨x0, y0⟩ := p0
      simp only [interp1]
      rw [if_neg (not_lt.mpr (le_of_lt (hall (x0, y0) (by simp [hz]))))]
      exact interpFrom_right q rest x0 y0 (fun p hp => hall p (by simp [hz, hp]))
        (hall (x0, y0) (by simp [hz]))

/-- Witness for C3 on the curve [(5,100),(10,500)]: query 4 is below the
curve, query 11 above it, the knots return 100 and 500, and the interior
query 7.5 returns 300. -/
theorem interpolate_power_spec_witness :
    interp1 ([(5 : ℝ), 10].zip [(100 : ℝ), 500]) 4 = 0 ∧
    interp1 ([(5 : ℝ), 10].zip [(100 : ℝ), 500]) 11 = 0 ∧
    interp1 ([(5 : ℝ), 10].zip [(100 : ℝ), 500]) 5 = 100 ∧
    interp1 ([(5 : ℝ), 10].zip [(100 : ℝ), 500]) 10 = 500 ∧
    interp1 ([(5 : ℝ), 10].zip [(100 : ℝ), 500]) 7.5 = 300 := by
  have hlen : ([(5 : ℝ), 10] : List ℝ).length = ([(100 : ℝ), 500] : List ℝ).length := rfl
  have hsort : ([(5 : ℝ), 10] : List ℝ).Chain' (· < ·) := by
    simp [List.chain'_cons]
    norm_num
  have hzip : ([(5 : ℝ), 10].zip [(100 : ℝ), 500]) = [((5 : ℝ), (100 : ℝ)), (10, 500)] := rfl
  refine ⟨?_, ?_, ?_, ?_, ?_⟩
  · exact (interpolate_power_spec [5, 10] [100, 500] 4 hlen hsort).1
      (by rw [hzip]; intro p hp; simp at hp; rcases hp with rfl | rfl <;> norm_num)
  · exact (interpolate_power_spec [5, 10] [100, 500] 11 hlen hsort).2.1
      (by rw [hzip]; intro p hp; simp at hp; rcases hp with rfl | rfl <;> norm_num)
  · have h := (interpolate_power_spec [5, 10] [100, 500] 5 hlen hsort).2.2.1
      ((5 : ℝ), (100 : ℝ)) (by rw [hzip]; simp)
    simpa using h
  · have h := (interpolate_power_spec [5, 10] [100, 500] 10 hlen hsort).2.2.1
      ((10 : ℝ), (500 : ℝ)) (by rw [hzip]; simp)
    simpa using h
  · have h := (interpolate_power_spec [5, 10] [100, 500] 7.5 hlen hsort).2.2.2
      [] 5 100 10 500 [] (by rw [hzip]; rfl) (by norm_num) (by norm_num)
    rw [h]
    norm_num

/-- Largest power value of the curve, 0 for the empty curve. -/
noncomputable def maxPower (curve : List (ℝ × ℝ)) : ℝ :=
  curve.foldr (fun p m => max p.2 m) 0

theorem interpFrom_bounds (x : ℝ) :
    ∀ (rest : List (ℝ × ℝ)) (x0 y0 : ℝ), x0 ≤ x → 0 ≤ y0 →
      (∀ p ∈ rest, 0 ≤ p.2) →
      0 ≤ interpFrom x x0 y0 rest ∧
        interpFrom x x0 y0 rest ≤ max y0 (maxPower rest) := by
  intro rest
  induction rest with
  | nil =>
    intro x0 y0 _ hy0 _
    simp only [interpFrom, maxPower, List.foldr_nil]
    by_cases h : x ≤ x0
    · rw [if_pos h]
      exact ⟨hy0, le_max_left _ _⟩
    · rw [if_neg h]
      exact ⟨le_refl 0, le_max_of_le_left hy0⟩
  | cons p rest ih =>
    intro x0 y0 hx0 hy0 hnn
    obtain ⟨x1, y1⟩ := p
    have hy1 : 0 ≤ y1 := hnn (x1, y1) (by simp)
    have hmaxc : maxPower ((x1, y1) :: rest) = max y1 (maxPower rest) := rfl
    simp only [interpFrom]
    by_cases h : x ≤ x1
    · rw [if_pos h]
      rcases lt_or_le x0 x1 with hlt | hge
      · have hd : (0 : ℝ) < x1 - x0 := by linarith
        have ht0 : 0 ≤ (x - x0) / (x1 - x0) := div_nonneg (by linarith) (le_of_lt hd)
        have ht1 : (x - x0) / (x1 - x0) ≤ 1 := by
          rw [div_le_one hd]
          linarith
        have hval : y0 + (y1 - y0) * (x - x0) / (x1 - x0) =
            y0 + (y1 - y0) * ((x - x0) / (x1 - x0)) := by
          rw [mul_div_assoc]
        constructor
        · rw [hval]
          nlinarith [mul_nonneg (sub_nonneg.mpr ht1) hy0, mul_nonneg ht0 hy1]
        · rw [hmaxc, hval]
          have hm0 : y0 ≤ max y0 (max y1 (maxPower rest)) := le_max_left _ _
          have hm1 : y1 ≤ max y0 (max y1 (maxPower rest)) :=
            le_trans (le_max_left _ _) (le_max_right _ _)
          nlinarith [mul_nonneg (sub_nonneg.mpr ht1) (sub_nonneg.mpr hm0),
            mul_nonneg ht0 (sub_nonneg.mpr hm1)]
      · have hx : x = x0 := le_antisymm (le_trans h hge) hx0
        have hzero : y0 + (y1 - y0) * (x - x0) / (x1 - x0) = y0 := by
          rw [hx]
          simp
        rw [hzero]
        exact ⟨hy0, le_max_left _ _⟩
    · rw [if_neg h]
      have hrec := ih x1 y1 (le_of_lt (not_le.mp h)) hy1
        (fun p hp => hnn p (by simp [hp]))
      refine ⟨hrec.1, ?_⟩
      rw [hmaxc]
      exact le_trans hrec.2 (le_max_right _ _)

theorem interp1_bounds (curve : List (ℝ × ℝ)) (hnn : ∀ p ∈ curve, 0 ≤ p.2) (q : ℝ) :
    0 ≤ interp1 curve q ∧ interp1 curve q ≤ maxPower curve := by
  cases curve with
  | nil => simp [interp1, maxPower]
  | cons p rest =>
    obtain ⟨x0, y0⟩ := p
    have hy0 : 0 ≤ y0 := hnn (x0, y0) (by simp)
    have hmaxc : maxPower ((x0, y0) :: rest) = max y0 (maxPower rest) := rfl
    simp only [interp1]
    by_cases h : q < x0
    · rw [if_pos h, hmaxc]
      exact ⟨le_refl 0, le_max_of_le_left hy0⟩
    · rw [if_neg h, hmaxc]
      exact interpFrom_bounds q rest x0 y0 (not_lt.mp h) hy0
        (fun p hp => hnn p (by simp [hp]))

theorem sumOpt_nonneg (l : List (Option ℝ))
    (h : ∀ o ∈ l, ∀ x : ℝ, o = some x → 0 ≤ x) :
    ∀ s, sumOpt l = some s → 0 ≤ s := by
  induction l with
  | nil =>
    intro s hs
    simp only [sumOpt, Option.some.injEq] at hs
    linarith [hs]
  | cons o rest ih =>
    intro s hs
    cases o with
    | none => simp [sumOpt] at hs
    | some a =>
      simp only [sumOpt, Option.some_bind] at hs
      cases hr : sumOpt rest with
      | none => rw [hr] at hs; simp at hs
      | some s2 =>
        rw [hr] at hs
        simp only [Option.map_some', Option.some.injEq] at hs
        have h1 : 0 ≤ a := h (some a) (by simp) a rfl
        have h2 : 0 ≤ s2 := ih (fun o ho x hx => h o (by simp [ho]) x hx) s2 hr
        linarith [hs]

/-- C10: on a power curve with nonnegative power values, every interpolated
power lies in the closed interval from 0 to the largest power value, and
compute_aep, whenever it is defined, is nonnegative. -/
theorem interpolate_power_bounds (ws_curve power_curve : List ℝ)
    (hnn : ∀ y ∈ power_curve, 0 ≤ y) :
    (∀ q, 0 ≤ interp1 (ws_curve.zip power_curve) q ∧
       interp1 (ws_curve.zip power_curve) q ≤ maxPower (ws_curve.zip power_curve)) ∧
    (∀ (ds : GridDataset) (lat lon hub_height : ℝ) (year : Int) (alpha a : ℝ),
       compute_aep ds lat lon hub_height ws_curve power_curve year alpha = some a →
       0 ≤ a) := by
  have hznn : ∀ p ∈ ws_curve.zip power_curve, 0 ≤ p.2 := by
    intro p hp
    obtain ⟨x1, y1⟩ := p
    exact hnn y1 (List.of_mem_zip hp).2
  constructor
  · intro q
    exact interp1_bounds _ hznn q
  · intro ds lat lon hub_height year alpha a ha
    rw [compute_aep_eq_aep_with_ref] at ha
    unfold aep_with_ref at ha
    cases hs : sumOpt (interpolate_power
        (get_speed_at_height_power_law ds lat lon hub_height
          (if 50 < hub_height then 100 else 10) alpha year year)
        ws_curve power_curve) with
    | none => rw [hs] at ha; simp at ha
    | some s =>
      rw [hs] at ha
      simp only [Option.map_some', Option.some.injEq] at ha
      have hsn : 0 ≤ s := by
        refine sumOpt_nonneg _ ?_ s hs
        intro o ho x hx
        unfold interpolate_power at ho
        rcases List.mem_map.mp ho with ⟨o2, _, rfl⟩
        cases o2 with
        | none => simp at hx
        | some v =>
          simp only [Option.map_some', Option.some.injEq] at hx
          rw [← hx]
          exact (interp1_bounds _ hznn v).1
      rw [← ha]
      positivity

/-- Witness for C10: the curve [(0,0),(10,1000)] has nonnegative powers, the
interpolated power at 7.5 lies between 0 and the largest curve power, and a
concrete defined AEP value is nonnegative. -/
theorem interpolate_power_bounds_witness :
    (0 ≤ interp1 ([(0 : ℝ), 10].zip [(0 : ℝ), 1000]) 7.5 ∧
      interp1 ([(0 : ℝ), 10].zip [(0 : ℝ), 1000]) 7.5 ≤
        maxPower ([(0 : ℝ), 10].zip [(0 : ℝ), 1000])) ∧
    (0 : ℝ) ≤ 0 := by
  have hnn : ∀ y ∈ [(0 : ℝ), 1000], 0 ≤ y := by
    intro y hy
    simp at hy
    rcases hy with rfl | rfl <;> norm_num
  have haep : compute_aep dsEmpty 0 0 100 [(0 : ℝ), 10] [(0 : ℝ), 1000] 2000 1 =
      some 0 := by
    rw [compute_aep_eq_aep_with_ref]
    unfold aep_with_ref interpolate_power get_speed_at_height_power_law
      get_time_series_at_location subset_years dsEmpty
    simp [sumOpt]
  exact ⟨(interpolate_power_bounds [0, 10] [0, 1000] hnn).1 7.5,
    (interpolate_power_bounds [0, 10] [0, 1000] hnn).2 dsEmpty 0 0 100 2000 1 0 haep⟩

/-- Model of the numpy float64 power x ** y as it appears in fit_weibull for
a nonnegative base: zero raised to a negative exponent yields +infinity (a
runtime warning, not an exception), otherwise the real power.  The value is
an extended real so that the infinite case is representable. -/
noncomputable def fpow (x y : ℝ) : EReal :=
  if x = 0 ∧ y < 0 then ⊤ else ((x ^ y : ℝ) : EReal)

/-- Value of the float64 quotient 1.0 / k for fit_weibull's shape parameter:
0 when k is +infinity, the real reciprocal otherwise. -/
noncomputable def floatRecip (k : EReal) : ℝ :=
  if k = ⊤ then 0 else k.toReal⁻¹

/-- Embedding of WindResourceModel.fit_weibull.  NaN entries of the input
are modeled as none and dropped first; the sentinel return (nan, nan) is
modeled as none; np.std is the population standard deviation. -/
noncomputable def fit_weibull (speeds : List (Option ℝ)) : Option (ℝ × EReal) :=
  let arr := speeds.filterMap id
  if arr.length = 0 then none
  else
    let mean := arr.sum / (arr.length : ℝ)
    let std := Real.sqrt (((arr.map fun x => (x - mean) ^ 2).sum) / (arr.length : ℝ))
    if mean = 0 then none
    else
      let k := fpow (std / mean) (-1.086)
      some (mean / Real.Gamma (1 + floatRecip k), k)

/-- C5: fit_weibull first drops the NaN entries of its input, and returns
the undefined sentinel (nan, nan), rather than raising, whenever the
remaining sample is empty or its mean is exactly zero. -/
theorem fit_weibull_degenerate (speeds : List (Option ℝ)) :
    (fit_weibull speeds = fit_weibull ((speeds.filterMap id).map some)) ∧
    (speeds.filterMap id = [] → fit_weibull speeds = none) ∧
    ((speeds.filterMap id).sum / ((speeds.filterMap id).length : ℝ) = 0 →
      fit_weibull speeds = none) := by
  refine ⟨?_, ?_, ?_⟩
  · have h : ((speeds.filterMap id).map some).filterMap id = speeds.filterMap id := by
      simp
    unfold fit_weibull
    rw [h]
  · intro h
    unfold fit_weibull
    rw [h]
    simp
  · intro h
    by_cases hl : (speeds.filterMap id).length = 0
    · simp [fit_weibull, hl]
    · simp [fit_weibull, hl, h]

/-- Witness for C5: fit_weibull on an all-NaN array and on an all-zero array
returns the sentinel. -/
theorem fit_weibull_degenerate_witness :
    ([(none : Option ℝ)].filterMap id = []) ∧
    fit_weibull [(none : Option ℝ)] = none ∧
    (([some (0 : ℝ), some 0].filterMap id).sum /
        (([some (0 : ℝ), some 0].filterMap id).length : ℝ) = 0) ∧
    fit_weibull [some (0 : ℝ), some 0] = none := by
  have h1 : [(none : Option ℝ)].filterMap id = [] := by simp
  have h2 : (([some (0 : ℝ), some 0].filterMap id).sum /
      (([some (0 : ℝ), some 0].filterMap id).length : ℝ) = 0) := by
    simp
  exact ⟨h1, (fit_weibull_degenerate [none]).2.1 h1, h2,
    (fit_weibull_degenerate [some 0, some 0]).2.2 h2⟩

theorem filterMap_id_replicate_some (n : Nat) (v : ℝ) :
    (List.replicate n (some v)).filterMap id = List.replicate n v := by
  induction n with
  | zero => rfl
  | succ m ih => simp [List.replicate_succ, ih]

theorem fpow_zero_neg : fpow 0 (-1.086) = ⊤ := by
  unfold fpow
  rw [if_pos ⟨rfl, by norm_num⟩]

theorem floatRecip_top : floatRecip ⊤ = 0 := by
  unfold floatRecip
  rw [if_pos rfl]

theorem fit_weibull_replicate (n : Nat) (v : ℝ) (hn : 0 < n) (hv : 0 < v) :
    fit_weibull (List.replicate n (some v)) = some (v, ⊤) := by
  have hne : (n : ℝ) ≠ 0 := Nat.cast_ne_zero.mpr hn.ne'
  have hmean : (n : ℝ) * v / (n : ℝ) = v := mul_div_cancel_left₀ v hne
  unfold fit_weibull
  rw [filterMap_id_replicate_some]
  simp only [List.length_replicate, List.sum_replicate, List.map_replicate,
    nsmul_eq_mul, hmean]
  rw [if_neg hn.ne']
  rw [if_neg hv.ne']
  have hstd : Real.sqrt ((n : ℝ) * (v - v) ^ 2 / (n : ℝ)) / v = 0 := by
    simp
  rw [hstd, fpow_zero_neg, floatRecip_top]
  simp [Real.Gamma_one]

/-- Counterexample to C6 as stated: on 100 copies of 8 m/s the fitted shape
parameter is +infinity (the float64 value of 0 raised to the negative Justus
exponent), so fit_weibull does not return finite values there. -/
theorem fit_weibull_const_counterexample :
    fit_weibull (List.replicate 100 (some (8 : ℝ))) = some (8, (⊤ : EReal)) ∧
    ¬ ((⊤ : EReal) ≠ ⊤ ∧ (⊤ : EReal) ≠ ⊥) := by
  refine ⟨fit_weibull_replicate 100 8 (by norm_num) (by norm_num), ?_⟩
  intro h
  exact h.1 rfl

/-- C6 (amended): on a constant sample of n copies of v with v > 0,
fit_weibull returns the non-NaN pair (v, +infinity): the scale A equals v
exactly, so A * Gamma(1 + 1/k) = v lies within the tolerance of 1, while
the shape k is the infinite float value of 0 raised to a negative power,
hence not finite. -/
theorem fit_weibull_const (n : Nat) (v : ℝ) (hn : 0 < n) (hv : 0 < v) :
    fit_weibull (List.replicate n (some v)) = some (v, ⊤) ∧
    |v * Real.Gamma (1 + floatRecip ⊤) - v| ≤ 1 := by
  refine ⟨fit_weibull_replicate n v hn hv, ?_⟩
  rw [floatRecip_top]
  simp [Real.Gamma_one]

/-- Witness for the amended C6 at n = 100, v = 8. -/
theorem fit_weibull_const_witness :
    0 < 100 ∧ (0 : ℝ) < 8 ∧
    fit_weibull (List.replicate 100 (some (8 : ℝ))) = some (8, ⊤) ∧
    |(8 : ℝ) * Real.Gamma (1 + floatRecip ⊤) - 8| ≤ 1 :=
  ⟨by norm_num, by norm_num,
   (fit_weibull_const 100 8 (by norm_num) (by norm_num)).1,
   (fit_weibull_const 100 8 (by norm_num) (by norm_num)).2⟩

/-- Chronological order on timestamps (year first, position second). -/
def TimeStamp.le (a b : TimeStamp) : Prop :=
  a.year < b.year ∨ (a.year = b.year ∧ a.sub ≤ b.sub)

/-- Strict chronological order on timestamps. -/
def TimeStamp.lt (a b : TimeStamp) : Prop :=
  a.year < b.year ∨ (a.year = b.year ∧ a.sub < b.sub)

instance : DecidableRel TimeStamp.le := fun a b =>
  inferInstanceAs (Decidable (a.year < b.year ∨ (a.year = b.year ∧ a.sub ≤ b.sub)))

instance : DecidableRel TimeStamp.lt := fun a b =>
  inferInstanceAs (Decidable (a.year < b.year ∨ (a.year = b.year ∧ a.sub < b.sub)))

instance : IsTotal TimeStamp TimeStamp.le := by
  constructor
  intro a b
  unfold TimeStamp.le
  omega

instance : IsTrans TimeStamp TimeStamp.le := by
  constructor
  intro a b c
  unfold TimeStamp.le
  omega

/-- Embedding of WindResourceModel.load_data, restricted to the time index
of the dataset: xr.concat joins the time indices of the given files along
the time dimension and sortby("time") sorts the concatenation; since only
timestamps are modeled, any sorting algorithm yields the same list. -/
def load_data (file_times : List (List TimeStamp)) : List TimeStamp :=
  List.insertionSort TimeStamp.le file_times.flatten

/-- Counterexample to C9 as stated: two source files holding the same
timestamp; after load_data merges them the time index keeps both copies, so
it is neither deduplicated nor strictly sorted. -/
theorem load_data_counterexample :
    load_data [[⟨5, 0⟩], [⟨5, 0⟩]] = [⟨5, 0⟩, ⟨5, 0⟩] ∧
    ¬ (load_data [[⟨5, 0⟩], [⟨5, 0⟩]]).Nodup ∧
    ¬ (load_data [[⟨5, 0⟩], [⟨5, 0⟩]]).Chain' TimeStamp.lt := by
  have h : load_data [[⟨5, 0⟩], [⟨5, 0⟩]] = [⟨5, 0⟩, ⟨5, 0⟩] := by
    decide
  refine ⟨h, by rw [h]; decide, ?_⟩
  rw [h]
  simp [List.chain'_cons, TimeStamp.lt]

/-- C9 (amended): after load_data merges the source files along the time
axis, the time index is sorted ascending (non-strictly: duplicate
timestamps contributed by several files are all kept, the merge does not
deduplicate) and is a permutation of the concatenation of the source time
indices; every query operation is a pure function that leaves the loaded
dataset unchanged. -/
theorem load_data_sorted (file_times : List (List TimeStamp)) :
    List.Sorted TimeStamp.le (load_data file_times) ∧
    List.Perm (load_data file_times) file_times.flatten :=
  ⟨List.sorted_insertionSort TimeStamp.le file_times.flatten,
   List.perm_insertionSort TimeStamp.le file_times.flatten⟩
